import Mathlib

/-!
Verification of the rPPG heart-rate pipeline (HeartbeatAnalyzer.cpp,
FaceProcessor.cpp, Config.cpp, main.cpp) against its natural-language
specification.  Floating-point arithmetic of the C++ code is embedded as
exact real arithmetic; machine integers (int, size_t) are embedded as
Int / Nat.  Definitions follow the source line by line; the source file
and line ranges are cited on each definition.
-/

namespace HeartRate

/-- One color sample held by the analyzer: the triple (B, G, R) of per-ROI
channel means, i.e. slots s[0], s[1], s[2] of the cv::Scalar passed to
HeartbeatAnalyzer::add_sample (HeartbeatAnalyzer.cpp line 42). -/
abbrev Sample : Type := ℝ × ℝ × ℝ

/-- Diagnostic record emitted (via spdlog::debug) by the debug-only top-3 peak
block of calculate_bpm (HeartbeatAnalyzer.cpp lines 157-169): BPM and magnitude
of the three largest in-band peaks, the ratio between peak 1 and peak 2 (rr)
and the same ratio in decibels (rdb). -/
structure PeakDiag where
  bpm0 : ℝ
  mag0 : ℝ
  bpm1 : ℝ
  mag1 : ℝ
  bpm2 : ℝ
  mag2 : ℝ
  rr : ℝ
  rdb : ℝ

/-- State of a HeartbeatAnalyzer object (HeartbeatAnalyzer.hpp): window
capacity m_ws, sample rate m_fps, the FIFO buffer m_buffer (front of the
deque = head of the list = oldest sample), and the two debug plot members
m_debug_fft_input / m_debug_fft_magnitude.  The debug plots are modelled by
the data sequence handed to plot_signal (rasterisation by cv::line is done by
OpenCV, outside this repository); an empty cv::Mat is modelled as none.
The spdlog::debug diagnostic record of the top-3 block is modelled as the
field lastPeakDiag (none = nothing was emitted). -/
structure HeartbeatAnalyzer where
  ws : ℕ
  fps : ℝ
  buffer : List Sample
  debug_fft_input : Option (List ℝ)
  debug_fft_magnitude : Option (List ℝ)
  lastPeakDiag : Option PeakDiag

/-- Constructor HeartbeatAnalyzer(window_size, fps)
(HeartbeatAnalyzer.cpp lines 39-40): empty buffer, no debug plots. -/
def HeartbeatAnalyzer.init (ws : ℕ) (fps : ℝ) : HeartbeatAnalyzer :=
  ⟨ws, fps, [], none, none, none⟩

/-- HeartbeatAnalyzer::add_sample (HeartbeatAnalyzer.cpp lines 42-45):
push_back, then pop_front when the size exceeds m_ws. -/
def add_sample (a : HeartbeatAnalyzer) (s : Sample) : HeartbeatAnalyzer :=
  let buf := a.buffer ++ [s]
  { a with buffer := if a.ws < buf.length then buf.tail else buf }

/-- Feeding a list of samples through add_sample, oldest first. -/
def feedSamples (a : HeartbeatAnalyzer) (xs : List Sample) : HeartbeatAnalyzer :=
  xs.foldl add_sample a

/-- Arithmetic mean of a list, as computed by std::accumulate / size
(HeartbeatAnalyzer.cpp lines 58-59 and 77 and 88).  For the empty list this
is 0/0 = 0. -/
noncomputable def meanL (v : List ℝ) : ℝ := v.sum / v.length

/-- The per-channel temporal normalization lambda of calculate_bpm
(HeartbeatAnalyzer.cpp lines 57-63): v maps to v / (mean + 1e-6) - 1. -/
noncomputable def normalizeCh (v : List ℝ) : List ℝ :=
  v.map (fun x => x / (meanL v + 1e-6) - 1)

/-- The get_std lambda of calculate_bpm (HeartbeatAnalyzer.cpp lines 76-80):
sqrt(inner_product(v,v)/n - mean^2), the population standard deviation in the
sum-of-squares form used by the code. -/
noncomputable def get_std (v : List ℝ) : ℝ :=
  Real.sqrt ((v.map fun x => x * x).sum / v.length - meanL v * meanL v)

/-- Pointwise combination of three equal-length lists (the indexed loops of
HeartbeatAnalyzer.cpp lines 70-73 run over lists of equal length m_ws). -/
def zipWith3 (f : α → β → γ → δ) : List α → List β → List γ → List δ
  | a :: as, b :: bs, c :: cs => f a b c :: zipWith3 f as bs cs
  | _, _, _ => []

/-- The Hamming window coefficient applied at index i of an N-point signal
(HeartbeatAnalyzer.cpp line 95): 0.54 - 0.46 cos(2 pi i / (N - 1)).
The divisor m_ws - 1 is size_t arithmetic, hence truncated subtraction. -/
noncomputable def hammingCoeff (N i : ℕ) : ℝ :=
  0.54 - 0.46 * Real.cos (2 * Real.pi * (i : ℝ) / ((N - 1 : ℕ) : ℝ))

/-- The PulseSignal handed to the spectral stage, translated from
HeartbeatAnalyzer.cpp lines 50-96 (steps 1-6 of calculate_bpm):
channel split (B = s[0], G = s[1], R = s[2]), per-channel normalization,
POS projections S1 = G - B and S2 = G + B - 2R, alpha = std(S1)/(std(S2)+1e-6),
H = S1 + alpha S2, subtraction of H's own mean, Hamming window.
In the code the loops run over m_ws indices; the buffer length equals m_ws
whenever this stage is reached (guard at line 48 plus the add_sample
invariant), so the buffer length is used as the window length N. -/
noncomputable def posH (buf : List Sample) : List ℝ :=
  let R := normalizeCh (buf.map (fun s => s.2.2))
  let G := normalizeCh (buf.map (fun s => s.2.1))
  let B := normalizeCh (buf.map (fun s => s.1))
  let S1 := List.zipWith (fun g b => g - b) G B
  let S2 := zipWith3 (fun g b r => g + b - 2 * r) G B R
  let alpha := get_std S1 / (get_std S2 + 1e-6)
  let H0 := List.zipWith (fun s1 s2 => s1 + alpha * s2) S1 S2
  let H1 := H0.map (fun v => v - meanL H0)
  H1.mapIdx (fun i v => v * hammingCoeff buf.length i)

/-- Population standard deviation in the textbook form used by the
specification (mean of squared deviations from the mean). -/
noncomputable def popStd (v : List ℝ) : ℝ :=
  Real.sqrt ((v.map fun x => (x - meanL v) ^ 2).sum / v.length)

/-- Reference POS definition, written from the specification text
(spec sections 4.4 steps 1-8): normalization v / (mu + 1e-6) - 1,
S1 = G - B, S2 = G + B - 2R, alpha = popstd(S1) / (popstd(S2) + 1e-6) with
population standard deviations, H = S1 + alpha S2, H recentered by its own
mean, Hamming window 0.54 - 0.46 cos(2 pi i / (N-1)). -/
noncomputable def posReference (buf : List Sample) : List ℝ :=
  let R := normalizeCh (buf.map (fun s => s.2.2))
  let G := normalizeCh (buf.map (fun s => s.2.1))
  let B := normalizeCh (buf.map (fun s => s.1))
  let S1 := List.zipWith (fun g b => g - b) G B
  let S2 := zipWith3 (fun g b r => g + b - 2 * r) G B R
  let alpha := popStd S1 / (popStd S2 + 1e-6)
  let H0 := List.zipWith (fun s1 s2 => s1 + alpha * s2) S1 S2
  let H1 := H0.map (fun v => v - meanL H0)
  H1.mapIdx (fun i v => v * hammingCoeff buf.length i)

/-- Magnitude of bin k of the length-N complex DFT computed by cv::dft on the
real signal H with a zero imaginary plane (HeartbeatAnalyzer.cpp lines
105-110): the absolute value of sum_j H[j] exp(-2 pi I j k / N). -/
noncomputable def dftMag (H : List ℝ) (k : ℕ) : ℝ :=
  Complex.abs (∑ j ∈ Finset.range H.length,
    (H.getD j 0 : ℂ) * Complex.exp (-(2 * Real.pi * Complex.I * (j : ℂ) * (k : ℂ)) / (H.length : ℂ)))

/-- The std::clamp template of the C++ standard library: the value lo when
v < lo, the value hi when hi < v, otherwise v (defined behaviour requires
lo ≤ hi). -/
def clampO [LinearOrder α] (v lo hi : α) : α :=
  if v < lo then lo else if hi < v then hi else v

/-- The frequency-band-to-bin computation of calculate_bpm
(HeartbeatAnalyzer.cpp lines 122-132): BPM bounds to Hz clamped into
[0, fps/2] (the upper bound additionally kept at least min_hz), then
low = floor(min_hz N / fps) and high = ceil(max_hz N / fps), clamped into
[1, N/2 - 1] with high kept at least low.  N/2 is size_t division cast
to int. -/
noncomputable def binBand (N : ℕ) (fps min_b max_b : ℝ) : ℤ × ℤ :=
  let min_hz := clampO (min_b / 60) 0 (fps / 2)
  let max_hz := clampO (max_b / 60) min_hz (fps / 2)
  let low0 : ℤ := ⌊min_hz * (N : ℝ) / fps⌋
  let high0 : ℤ := ⌈max_hz * (N : ℝ) / fps⌉
  let max_bin : ℤ := ((N / 2 : ℕ) : ℤ) - 1
  let low := clampO low0 1 max_bin
  (low, clampO high0 low max_bin)

/-- The list of bin indices visited by the peak-search loop of calculate_bpm
(HeartbeatAnalyzer.cpp line 135): i from low while i ≤ high and i < N/2. -/
def scanIdxs (N : ℕ) (low high : ℤ) : List ℤ :=
  (List.range (min high (((N / 2 : ℕ) : ℤ) - 1) + 1 - low).toNat).map (fun j : ℕ => low + (j : ℤ))

/-- The running-maximum peak search of calculate_bpm (HeartbeatAnalyzer.cpp
lines 133-140): peak starts at -1 and max_v at -1.0; each visited index with
magnitude strictly above the running maximum replaces the pair. -/
noncomputable def peakScan (m : ℤ → ℝ) (idxs : List ℤ) : ℤ × ℝ :=
  idxs.foldl (fun pm i => if pm.2 < m i then (i, m i) else pm) (-1, -1)

/-- The top-3 insertion step of the debug-only diagnostics block
(HeartbeatAnalyzer.cpp lines 144-156): strict descending insertion with
shift-down, first-seen index kept on ties. -/
noncomputable def top3Insert (t : (ℤ × ℝ) × (ℤ × ℝ) × (ℤ × ℝ)) (i : ℤ) (v : ℝ) :
    (ℤ × ℝ) × (ℤ × ℝ) × (ℤ × ℝ) :=
  if t.1.2 < v then ((i, v), t.1, t.2.1)
  else if t.2.1.2 < v then (t.1, (i, v), t.2.1)
  else if t.2.2.2 < v then (t.1, t.2.1, (i, v))
  else t

/-- The diagnostic record computed by the debug-only block of calculate_bpm
(HeartbeatAnalyzer.cpp lines 142-169); none when the best entry kept a
non-positive index (nothing is logged then). -/
noncomputable def peakDiagOf (m : ℤ → ℝ) (idxs : List ℤ) (fps : ℝ) (N : ℕ) : Option PeakDiag :=
  let t := idxs.foldl (fun t i => top3Insert t i (m i)) ((-1, -1), (-1, -1), (-1, -1))
  if 0 < t.1.1 then
    let hz0 := (t.1.1 : ℝ) * fps / (N : ℝ)
    let hz1 := if 0 < t.2.1.1 then (t.2.1.1 : ℝ) * fps / (N : ℝ) else 0
    let hz2 := if 0 < t.2.2.1 then (t.2.2.1 : ℝ) * fps / (N : ℝ) else 0
    let rr := if 0 < t.2.1.2 then t.1.2 / t.2.1.2 else 0
    some ⟨hz0 * 60, t.1.2, hz1 * 60, t.2.1.2, hz2 * 60, t.2.2.2, rr,
      if 0 < rr then 20 * Real.logb 10 rr else 0⟩
  else none

/-- Minimum of a list as found by std::min_element (plot_signal requires a
non-empty input; the headD default is never relevant there). -/
noncomputable def listMin (l : List ℝ) : ℝ := l.foldl min (l.headD 0)

/-- Maximum of a list as found by std::max_element. -/
noncomputable def listMax (l : List ℝ) : ℝ := l.foldl max (l.headD 0)

/-- The anonymous-namespace helper plot_signal (HeartbeatAnalyzer.cpp lines
10-36): none (empty cv::Mat) for fewer than two samples; otherwise the
vertically min-max normalized sequence (a flat input has its maximum widened
by 1.0), which is what the polyline rasteriser consumes.  Drawing with
cv::line into a raster is external to this repository and not modelled. -/
noncomputable def plot_signal (data : List ℝ) : Option (List ℝ) :=
  if data.length < 2 then none
  else
    let min_v := listMin data
    let max_v0 := listMax data
    let max_v := if |max_v0 - min_v| < 1e-6 then min_v + 1 else max_v0
    some (data.map (fun v => 1 - (v - min_v) / (max_v - min_v)))

/-- The value returned by HeartbeatAnalyzer::calculate_bpm
(HeartbeatAnalyzer.cpp lines 47-174), as a function of the buffer, the
capacity, the sample rate and the BPM bounds: the Buffering guard (line 48),
then the POS signal, the DFT magnitudes, the band-limited peak scan, and
either the noise-floor error (line 172, when the scan kept peak ≤ 0) or
peak * fps / N * 60 (line 173). -/
noncomputable def bpmOf (buf : List Sample) (ws : ℕ) (fps min_b max_b : ℝ) :
    Except String ℝ :=
  if buf.length < ws then .error "Buffering..."
  else
    let H := posH buf
    let N := buf.length
    let lh := binBand N fps min_b max_b
    let pm := peakScan (fun i => dftMag H i.toNat) (scanIdxs N lh.1 lh.2)
    if pm.1 ≤ 0 then .error "Noise floor too high"
    else .ok ((pm.1 : ℝ) * fps / (N : ℝ) * 60)

/-- HeartbeatAnalyzer::calculate_bpm (HeartbeatAnalyzer.cpp lines 47-174)
including its effect on the analyzer state: the debug-plot members are set
from the windowed signal and the magnitude spectrum when debug_plot is true
and released otherwise (lines 98-103, 112-119), and the debug-only top-3
diagnostic record is emitted in debug mode (lines 142-169).  The three
debug-guarded blocks share one condition and touch only debug state, so they
are gathered into a single conditional update. -/
noncomputable def calculate_bpm (a : HeartbeatAnalyzer) (min_b max_b : ℝ)
    (debug_plot : Bool) : HeartbeatAnalyzer × Except String ℝ :=
  if a.buffer.length < a.ws then (a, .error "Buffering...")
  else
    let H := posH a.buffer
    let N := a.buffer.length
    let lh := binBand N a.fps min_b max_b
    let idxs := scanIdxs N lh.1 lh.2
    let m : ℤ → ℝ := fun i => dftMag H i.toNat
    let pm := peakScan m idxs
    let a' :=
      if debug_plot then
        { a with
            debug_fft_input := plot_signal H
            debug_fft_magnitude := plot_signal ((List.range (N / 2)).map (fun i => dftMag H i))
            lastPeakDiag := peakDiagOf m idxs a.fps N }
      else
        { a with debug_fft_input := none, debug_fft_magnitude := none }
    (a', if pm.1 ≤ 0 then .error "Noise floor too high"
         else .ok ((pm.1 : ℝ) * a.fps / (N : ℝ) * 60))

/-- A 2-D point with real coordinates (cv::Point2f / cv::Vec2f). -/
structure Vec2 where
  x : ℝ
  y : ℝ

/-- A 2x3 affine matrix as used by cv::getAffineTransform and cv::warpAffine:
(x, y) maps to (m00 x + m01 y + m02, m10 x + m11 y + m12). -/
structure AffineM where
  m00 : ℝ
  m01 : ℝ
  m02 : ℝ
  m10 : ℝ
  m11 : ℝ
  m12 : ℝ

/-- Application of a 2x3 affine matrix to a point (cv::transform on a point
matrix). -/
def applyAffine (M : AffineM) (p : Vec2) : Vec2 :=
  ⟨M.m00 * p.x + M.m01 * p.y + M.m02, M.m10 * p.x + M.m11 * p.y + M.m12⟩

/-- Determinant of the 3x3 system matrix solved by cv::getAffineTransform for
a source triangle: zero exactly when the three source points are collinear. -/
def affDet (p1 p2 p3 : Vec2) : ℝ :=
  p1.x * (p2.y - p3.y) + p2.x * (p3.y - p1.y) + p3.x * (p1.y - p2.y)

/-- Cramer solution of a x_i + b y_i + c = r_i for i = 1, 2, 3 with system
determinant D (used by getAffineTransform in the nonsingular case). -/
noncomputable def solveRow (p1 p2 p3 : Vec2) (r1 r2 r3 D : ℝ) : ℝ × ℝ × ℝ :=
  ((r1 * (p2.y - p3.y) + r2 * (p3.y - p1.y) + r3 * (p1.y - p2.y)) / D,
   (p1.x * (r2 - r3) + p2.x * (r3 - r1) + p3.x * (r1 - r2)) / D,
   (p1.x * (p2.y * r3 - p3.y * r2) + p2.x * (p3.y * r1 - p1.y * r3)
      + p3.x * (p1.y * r2 - p2.y * r1)) / D)

/-- cv::getAffineTransform (called from FaceProcessor.cpp lines 86 and 123):
solves the 6x6 linear system mapping the source triangle onto the destination
triangle.  Modelled from the OpenCV implementation: the system is solved with
cv::solve(DECOMP_LU); when the system is singular (collinear source points)
cv::solve reports failure and the output matrix is left all-zero, so the
returned transform is the zero matrix. -/
noncomputable def getAffineTransform (s1 s2 s3 d1 d2 d3 : Vec2) : AffineM :=
  let D := affDet s1 s2 s3
  if D = 0 then ⟨0, 0, 0, 0, 0, 0⟩
  else
    let rx := solveRow s1 s2 s3 d1.x d2.x d3.x D
    let ry := solveRow s1 s2 s3 d1.y d2.y d3.y D
    ⟨rx.1, rx.2.1, rx.2.2, ry.1, ry.2.1, ry.2.2⟩

/-- cv::invertAffineTransform (FaceProcessor.cpp line 88), following the
OpenCV implementation: the 2x2 block is inverted with the reciprocal
determinant replaced by 0 when the determinant is zero, and the translation
column is back-substituted. -/
noncomputable def invertAffineTransform (M : AffineM) : AffineM :=
  let D0 := M.m00 * M.m11 - M.m01 * M.m10
  let D := if D0 ≠ 0 then 1 / D0 else 0
  let a11 := M.m11 * D
  let a12 := -M.m01 * D
  let a21 := -M.m10 * D
  let a22 := M.m00 * D
  ⟨a11, a12, -a11 * M.m02 - a12 * M.m12, a21, a22, -a21 * M.m02 - a22 * M.m12⟩

/-- An integer rectangle (cv::Rect). -/
structure Rect where
  x : ℤ
  y : ℤ
  w : ℤ
  h : ℤ

/-- cv::boundingRect of four floating-point points (FaceProcessor.cpp line
109), following the OpenCV implementation for CV_32F input: floor of the
coordinate minima and maxima, extents max - min + 1. -/
noncomputable def boundingRectF (c1 c2 c3 c4 : Vec2) : Rect :=
  let xmin := ⌊min (min (min c1.x c2.x) c3.x) c4.x⌋
  let ymin := ⌊min (min (min c1.y c2.y) c3.y) c4.y⌋
  let xmax := ⌊max (max (max c1.x c2.x) c3.x) c4.x⌋
  let ymax := ⌊max (max (max c1.y c2.y) c3.y) c4.y⌋
  ⟨xmin, ymin, xmax - xmin + 1, ymax - ymin + 1⟩

/-- The cv::Rect intersection operator (FaceProcessor.cpp line 110): the
overlapping region, or the zero rectangle when the overlap is empty. -/
def rectInter (a b : Rect) : Rect :=
  let x1 := max a.x b.x
  let y1 := max a.y b.y
  let w := min (a.x + a.w) (b.x + b.w) - x1
  let h := min (a.y + a.h) (b.y + b.h) - y1
  if w ≤ 0 ∨ h ≤ 0 then ⟨0, 0, 0, 0⟩ else ⟨x1, y1, w, h⟩

/-- FaceProcessor::get_stabilized_forehead (FaceProcessor.cpp lines 66-130):
the three anchor landmarks (parts 19, 24, 27) are mapped onto the canonical
anchors (60,100), (140,100), (100,130); the canonical forehead rectangle
(70, 40, 60, 45) is back-projected into the frame; the bounding box of its
corners is intersected with the frame bounds; a box narrower or shorter than
2 pixels yields the empty result (line 112).  On success the function warps
the cropped box with a re-based local affine transform; the warped pixel
content lives in the external camera frame, so the success value is modelled
as the crop rectangle together with that local transform. -/
noncomputable def get_stabilized_forehead (frameW frameH : ℤ) (p19 p24 p27 : Vec2) :
    Option (Rect × AffineM) :=
  let M := getAffineTransform p19 p24 p27 ⟨60, 100⟩ ⟨140, 100⟩ ⟨100, 130⟩
  let Minv := invertAffineTransform M
  let c1 := applyAffine Minv ⟨70, 40⟩
  let c2 := applyAffine Minv ⟨130, 40⟩
  let c3 := applyAffine Minv ⟨130, 85⟩
  let c4 := applyAffine Minv ⟨70, 85⟩
  let frame_roi := rectInter (boundingRectF c1 c2 c3 c4) ⟨0, 0, frameW, frameH⟩
  if frame_roi.w < 2 ∨ frame_roi.h < 2 then none
  else
    let adjS := fun (p : Vec2) => Vec2.mk (p.x - (frame_roi.x : ℝ)) (p.y - (frame_roi.y : ℝ))
    let adjD := fun (p : Vec2) => Vec2.mk (p.x - 70) (p.y - 40)
    some (frame_roi,
      getAffineTransform (adjS p19) (adjS p24) (adjS p27)
        (adjD ⟨60, 100⟩) (adjD ⟨140, 100⟩) (adjD ⟨100, 130⟩))

/-- FaceProcessor::get_avg_bgr (FaceProcessor.cpp lines 132-134): cv::mean
over the ROI.  The pixel content of a successful warp comes from the external
camera frame and is abstracted as the function pixelMean; cv::mean of the
empty cv::Mat yields the zero scalar. -/
def get_avg_bgr (pixelMean : Rect × AffineM → Sample) (roi : Option (Rect × AffineM)) :
    Sample :=
  match roi with
  | none => (0, 0, 0)
  | some r => pixelMean r

/-- The per-frame sample handling of the main loop when a face was found
(main.cpp lines 172-184): the stabilized forehead result is passed to
get_avg_bgr and add_sample unconditionally; there is no check for the empty
ROI before the sample is pushed. -/
def mainSampleStep (a : HeartbeatAnalyzer) (forehead : Option (Rect × AffineM))
    (pixelMean : Rect × AffineM → Sample) : HeartbeatAnalyzer :=
  add_sample a (get_avg_bgr pixelMean forehead)

/-- std::lround: rounding half away from zero, as an exact operation on
reals. -/
noncomputable def lround (x : ℝ) : ℤ :=
  if 0 ≤ x then ⌊x + 1 / 2⌋ else -⌊-x + 1 / 2⌋

/-- The acquisition_fps value produced by AppConfig::load (Config.cpp lines
14-15): the raw YAML value clamped into [10, 60]. -/
noncomputable def loadedAcquisitionFps (raw : ℝ) : ℝ := clampO raw 10 60

/-- The analyzer window capacity computed in main (main.cpp lines 115-117):
window_duration_seconds is first clamped to at least 1.0 second, the product
with acquisition_fps is rounded with std::lround, and the result is clamped
to at least 2. -/
noncomputable def windowSize (window_duration_seconds acquisition_fps : ℝ) : ℤ :=
  max 2 (lround (max 1 window_duration_seconds * acquisition_fps))

/-- The capacity formula claimed by the specification (spec section 3,
TemporalWindow): round(window_duration_seconds x acquisition_fps) clamped to
at least 2, with acquisition_fps clamped into [10, 60] at configuration
load. -/
noncomputable def specCapacity (window_duration_seconds acquisition_fps : ℝ) : ℤ :=
  max 2 (round (window_duration_seconds * clampO acquisition_fps 10 60))

/-! Helper lemmas. -/

lemma le_clampO [LinearOrder α] {lo hi : α} (h : lo ≤ hi) (v : α) : lo ≤ clampO v lo hi := by
  unfold clampO
  split_ifs with h1 h2
  · exact le_refl lo
  · exact h
  · exact le_of_not_lt h1

lemma clampO_le [LinearOrder α] {lo hi : α} (h : lo ≤ hi) (v : α) : clampO v lo hi ≤ hi := by
  unfold clampO
  split_ifs with h1 h2
  · exact h
  · exact le_refl hi
  · exact le_of_not_lt h2

lemma clampO_eq_max_min [LinearOrder α] {lo hi : α} (h : lo ≤ hi) (v : α) :
    clampO v lo hi = max lo (min hi v) := by
  unfold clampO
  split_ifs with h1 h2
  · rw [max_eq_left (le_of_lt (lt_of_le_of_lt (min_le_right hi v) h1))]
  · rw [min_eq_left (le_of_lt h2), max_eq_right h]
  · rw [min_eq_right (le_of_not_lt h2), max_eq_right (le_of_not_lt h1)]

lemma add_sample_ws (a : HeartbeatAnalyzer) (s : Sample) : (add_sample a s).ws = a.ws := rfl

lemma add_sample_buffer (a : HeartbeatAnalyzer) (s : Sample) :
    (add_sample a s).buffer =
      if a.ws < a.buffer.length + 1 then (a.buffer ++ [s]).tail else a.buffer ++ [s] := by
  simp [add_sample]

/-- Shape of the buffer after feeding a list of samples: the trailing
min(capacity, pushed) samples, in arrival order. -/
lemma feed_buffer (ws : ℕ) :
    ∀ (xs : List Sample) (a : HeartbeatAnalyzer), a.ws = ws → a.buffer.length ≤ ws →
      (feedSamples a xs).buffer = (a.buffer ++ xs).drop (a.buffer.length + xs.length - ws) ∧
      (feedSamples a xs).ws = ws := by
  intro xs
  induction xs with
  | nil =>
    intro a hws hlen
    refine ⟨?_, hws⟩
    have h0 : a.buffer.length + ([] : List Sample).length - ws = 0 := by
      simp
      omega
    rw [h0]
    simp [feedSamples]
  | cons x t ih =>
    intro a hws hlen
    have hstep : feedSamples a (x :: t) = feedSamples (add_sample a x) t := by
      simp [feedSamples, List.foldl_cons]
    rw [hstep]
    by_cases hfull : a.ws < a.buffer.length + 1
    · -- buffer was exactly full: the oldest sample is evicted
      have hlenA : a.buffer.length = ws := by omega
      have hbuf : (add_sample a x).buffer = (a.buffer ++ [x]).tail := by
        rw [add_sample_buffer, if_pos hfull]
      have hlen' : (add_sample a x).buffer.length ≤ ws := by
        rw [hbuf, List.length_tail]
        simp
        omega
      obtain ⟨h1, h2⟩ := ih (add_sample a x) (add_sample_ws a x ▸ hws) hlen'
      refine ⟨?_, h2⟩
      rw [h1, hbuf]
      have htail : (a.buffer ++ [x]).tail = (a.buffer ++ [x]).drop 1 := by
        rw [List.drop_one]
      rw [htail]
      have hlt : (1 : ℕ) ≤ (a.buffer ++ [x]).length := by simp
      rw [← List.drop_append_of_le_length hlt, List.drop_drop]
      have hassoc : (a.buffer ++ [x]) ++ t = a.buffer ++ (x :: t) := by
        simp
      rw [hassoc]
      congr 1
      have hl1 : ((a.buffer ++ [x]).drop 1).length = a.buffer.length := by simp
      rw [hl1]
      simp [List.length_cons]
      omega
    · -- room left: plain append
      have hbuf : (add_sample a x).buffer = a.buffer ++ [x] := by
        rw [add_sample_buffer, if_neg hfull]
      have hlen' : (add_sample a x).buffer.length ≤ ws := by
        rw [hbuf]
        simp
        omega
      obtain ⟨h1, h2⟩ := ih (add_sample a x) (add_sample_ws a x ▸ hws) hlen'
      refine ⟨?_, h2⟩
      rw [h1, hbuf]
      have hassoc : (a.buffer ++ [x]) ++ t = a.buffer ++ (x :: t) := by simp
      rw [hassoc]
      congr 1
      simp [List.length_cons]
      omega

/-- Claim C6: after capacity + k pushes the TemporalWindow holds exactly the
last capacity samples in arrival order, and its size never exceeds the
capacity after any number of pushes. -/
theorem temporal_window_fifo (ws k n : ℕ) (fps : ℝ) (xs : List Sample)
    (hws : 1 ≤ ws) (hlen : xs.length = ws + k) :
    (feedSamples (HeartbeatAnalyzer.init ws fps) xs).buffer = xs.drop k ∧
    ((feedSamples (HeartbeatAnalyzer.init ws fps) (xs.take n)).buffer).length ≤ ws := by
  constructor
  · obtain ⟨h1, _⟩ := feed_buffer ws xs (HeartbeatAnalyzer.init ws fps) rfl (by simp [HeartbeatAnalyzer.init])
    rw [h1]
    simp [HeartbeatAnalyzer.init]
    congr 1
    omega
  · obtain ⟨h1, _⟩ := feed_buffer ws (xs.take n) (HeartbeatAnalyzer.init ws fps) rfl (by simp [HeartbeatAnalyzer.init])
    rw [h1]
    simp [HeartbeatAnalyzer.init]
    omega

/-- Concrete instance of temporal_window_fifo: capacity 2, three pushes keep
the last two samples. -/
theorem temporal_window_fifo_witness :
    1 ≤ 2 ∧ ([((1 : ℝ), (2 : ℝ), (3 : ℝ)), (4, 5, 6), (7, 8, 9)] : List Sample).length = 2 + 1 ∧
    ((feedSamples (HeartbeatAnalyzer.init 2 10) [((1 : ℝ), (2 : ℝ), (3 : ℝ)), (4, 5, 6), (7, 8, 9)]).buffer
        = ([((1 : ℝ), (2 : ℝ), (3 : ℝ)), (4, 5, 6), (7, 8, 9)] : List Sample).drop 1 ∧
      ((feedSamples (HeartbeatAnalyzer.init 2 10)
          (([((1 : ℝ), (2 : ℝ), (3 : ℝ)), (4, 5, 6), (7, 8, 9)] : List Sample).take 2)).buffer).length ≤ 2) :=
  ⟨by norm_num, rfl,
    temporal_window_fifo 2 1 2 10 [((1 : ℝ), (2 : ℝ), (3 : ℝ)), (4, 5, 6), (7, 8, 9)]
      (by norm_num) rfl⟩

/-- The result component of calculate_bpm is the pure function bpmOf of the
buffer, the capacity, the sample rate and the BPM bounds. -/
lemma calculate_bpm_snd (a : HeartbeatAnalyzer) (min_b max_b : ℝ) (d : Bool) :
    (calculate_bpm a min_b max_b d).2 = bpmOf a.buffer a.ws a.fps min_b max_b := by
  unfold calculate_bpm bpmOf
  by_cases h : a.buffer.length < a.ws
  · rw [if_pos h, if_pos h]
  · rw [if_neg h, if_neg h]

/-- calculate_bpm only writes the debug members of the analyzer state: the
buffer, the capacity and the sample rate are unchanged. -/
lemma calculate_bpm_fst (a : HeartbeatAnalyzer) (min_b max_b : ℝ) (d : Bool) :
    (calculate_bpm a min_b max_b d).1.buffer = a.buffer ∧
    (calculate_bpm a min_b max_b d).1.ws = a.ws ∧
    (calculate_bpm a min_b max_b d).1.fps = a.fps := by
  unfold calculate_bpm
  by_cases h : a.buffer.length < a.ws
  · rw [if_pos h]
    exact ⟨rfl, rfl, rfl⟩
  · rw [if_neg h]
    cases d
    · exact ⟨rfl, rfl, rfl⟩
    · exact ⟨rfl, rfl, rfl⟩

/-- Claim C5: calculate_bpm reports Buffering exactly when the window holds
fewer than capacity samples, and in that case the analyzer state is returned
untouched with no signal computation. -/
lemma bpmOf_ne_buffering {buf : List Sample} {ws : ℕ} {fps min_b max_b : ℝ}
    (h : ¬ buf.length < ws) : bpmOf buf ws fps min_b max_b ≠ .error "Buffering..." := by
  unfold bpmOf
  rw [if_neg h]
  dsimp only
  split
  · simp
  · simp

theorem buffering_iff (a : HeartbeatAnalyzer) (min_b max_b : ℝ) (d : Bool) :
    ((calculate_bpm a min_b max_b d).2 = .error "Buffering..." ↔ a.buffer.length < a.ws) ∧
    (a.buffer.length < a.ws → calculate_bpm a min_b max_b d = (a, .error "Buffering...")) := by
  constructor
  · rw [calculate_bpm_snd]
    by_cases h : a.buffer.length < a.ws
    · simp only [h, iff_true]
      unfold bpmOf
      rw [if_pos h]
    · simp only [h, iff_false]
      exact bpmOf_ne_buffering h
  · intro h
    unfold calculate_bpm
    rw [if_pos h]

/-- Concrete instance of buffering_iff: 84 of 85 samples yield Buffering. -/
theorem buffering_iff_witness :
    (HeartbeatAnalyzer.mk 85 10 (List.replicate 84 ((120 : ℝ), 130, 110)) none none none).buffer.length
      < (HeartbeatAnalyzer.mk 85 10 (List.replicate 84 ((120 : ℝ), 130, 110)) none none none).ws ∧
    (calculate_bpm (HeartbeatAnalyzer.mk 85 10 (List.replicate 84 ((120 : ℝ), 130, 110)) none none none)
        45 180 false).2 = .error "Buffering..." :=
  ⟨by simp,
   (buffering_iff (HeartbeatAnalyzer.mk 85 10 (List.replicate 84 ((120 : ℝ), 130, 110)) none none none)
      45 180 false).1.mpr (by simp)⟩

/-- Claim C8: for a fixed window and configuration the returned BPM value does
not depend on the debug_plot flag, and a repeated invocation on the state
returned by a first call yields the identical result. -/
theorem bpm_deterministic (a : HeartbeatAnalyzer) (min_b max_b : ℝ) (d1 d2 : Bool) :
    (calculate_bpm a min_b max_b d1).2 = (calculate_bpm a min_b max_b d2).2 ∧
    (calculate_bpm (calculate_bpm a min_b max_b d1).1 min_b max_b d2).2
      = (calculate_bpm a min_b max_b d1).2 := by
  obtain ⟨hb, hw, hf⟩ := calculate_bpm_fst a min_b max_b d1
  constructor
  · rw [calculate_bpm_snd, calculate_bpm_snd]
  · rw [calculate_bpm_snd, calculate_bpm_snd, hb, hw, hf]

/-- Counterexample to claim C9 as stated: with window_duration_seconds = 0.5
and acquisition_fps = 10 the code clamps the duration up to 1.0 second first
and builds a capacity of 10, while the claimed formula
round(window_duration_seconds x acquisition_fps) clamped to at least 2 gives
5. -/
theorem capacity_formula_counterexample :
    windowSize (1 / 2) (loadedAcquisitionFps 10) = 10 ∧
    specCapacity (1 / 2) 10 = 5 ∧ (10 : ℤ) ≠ 5 := by
  refine ⟨?_, ?_, by norm_num⟩
  · have hc : clampO (10 : ℝ) 10 60 = 10 := by norm_num [clampO]
    unfold windowSize loadedAcquisitionFps
    rw [hc, max_eq_left (by norm_num : (1 : ℝ) / 2 ≤ 1)]
    unfold lround
    rw [if_pos (by norm_num)]
    have hf : ⌊(1 : ℝ) * 10 + 1 / 2⌋ = (10 : ℤ) := by
      rw [Int.floor_eq_iff]
      constructor <;> norm_num
    rw [hf]
    omega
  · have hc : clampO (10 : ℝ) 10 60 = 10 := by norm_num [clampO]
    unfold specCapacity
    rw [hc]
    have hr : round ((1 : ℝ) / 2 * 10) = (5 : ℤ) := by
      rw [round_eq, Int.floor_eq_iff]
      constructor <;> norm_num
    rw [hr]
    omega

/-- Claim C9 amended: the capacity equals
round(max(1, window_duration_seconds) x acquisition_fps) clamped to at least
2, with acquisition_fps clamped into [10, 60] at configuration load; the
clamp of the duration to at least one second (main.cpp line 115) is the part
the original claim omitted. -/
theorem capacity_formula_amended (wds raw : ℝ) :
    windowSize wds (loadedAcquisitionFps raw) =
      max 2 (round (max 1 wds * clampO raw 10 60)) ∧
    10 ≤ loadedAcquisitionFps raw ∧ loadedAcquisitionFps raw ≤ 60 := by
  refine ⟨?_, le_clampO (by norm_num) raw, clampO_le (by norm_num) raw⟩
  unfold windowSize loadedAcquisitionFps lround
  have h1 : (0 : ℝ) ≤ max 1 wds := le_trans zero_le_one (le_max_left _ _)
  have h2 : (0 : ℝ) ≤ clampO raw 10 60 :=
    le_trans (by norm_num) (le_clampO (by norm_num) raw)
  rw [if_pos (mul_nonneg h1 h2), round_eq]

lemma getAffineTransform_of_collinear {s1 s2 s3 : Vec2} (d1 d2 d3 : Vec2)
    (h : affDet s1 s2 s3 = 0) :
    getAffineTransform s1 s2 s3 d1 d2 d3 = ⟨0, 0, 0, 0, 0, 0⟩ := by
  unfold getAffineTransform
  rw [h]
  simp

lemma invertAffineTransform_zero :
    invertAffineTransform ⟨0, 0, 0, 0, 0, 0⟩ = ⟨0, 0, 0, 0, 0, 0⟩ := by
  unfold invertAffineTransform
  norm_num

lemma applyAffine_zero (p : Vec2) : applyAffine ⟨0, 0, 0, 0, 0, 0⟩ p = ⟨0, 0⟩ := by
  unfold applyAffine
  norm_num

lemma boundingRectF_origin :
    boundingRectF ⟨0, 0⟩ ⟨0, 0⟩ ⟨0, 0⟩ ⟨0, 0⟩ = ⟨0, 0, 1, 1⟩ := by
  unfold boundingRectF
  norm_num

lemma rectInter_unit_w (W H : ℤ) : (rectInter ⟨0, 0, 1, 1⟩ ⟨0, 0, W, H⟩).w < 2 := by
  unfold rectInter
  dsimp only
  split
  · norm_num
  · dsimp only
    omega

/-- Collinear anchors make get_stabilized_forehead report the defined failure
(empty ROI): the singular affine solve yields the zero transform, the four
back-projected corners collapse to the origin, and the 1x1 bounding box fails
the minimum-size check. -/
lemma stabilized_none_of_collinear (frameW frameH : ℤ) (p19 p24 p27 : Vec2)
    (h : affDet p19 p24 p27 = 0) :
    get_stabilized_forehead frameW frameH p19 p24 p27 = none := by
  unfold get_stabilized_forehead
  dsimp only
  rw [getAffineTransform_of_collinear _ _ _ h, invertAffineTransform_zero,
    applyAffine_zero, applyAffine_zero, applyAffine_zero, applyAffine_zero,
    boundingRectF_origin]
  rw [if_pos (Or.inl (rectInter_unit_w frameW frameH))]

/-- Claim C10: a degenerate (collinear) anchor triangle does not crash
get_stabilized_forehead; the function returns the defined failure value
(the empty ROI, modelled as none). -/
theorem stabilizer_degenerate_defined_failure (frameW frameH : ℤ) (p19 p24 p27 : Vec2)
    (h : affDet p19 p24 p27 = 0) :
    get_stabilized_forehead frameW frameH p19 p24 p27 = none :=
  stabilized_none_of_collinear frameW frameH p19 p24 p27 h

/-- Concrete instance of stabilizer_degenerate_defined_failure: three
collinear anchors on the x axis in a 640x480 frame. -/
theorem stabilizer_degenerate_defined_failure_witness :
    affDet ⟨0, 0⟩ ⟨1, 0⟩ ⟨2, 0⟩ = 0 ∧
    get_stabilized_forehead 640 480 ⟨0, 0⟩ ⟨1, 0⟩ ⟨2, 0⟩ = none :=
  ⟨by norm_num [affDet],
   stabilizer_degenerate_defined_failure 640 480 ⟨0, 0⟩ ⟨1, 0⟩ ⟨2, 0⟩ (by norm_num [affDet])⟩

/-- Claim C4 is violated by the code: when get_stabilized_forehead degenerates
and returns the empty ROI, main.cpp line 184 still pushes a sample (the
cv::mean of the empty Mat, the zero scalar) into the TemporalWindow, so the
window is affected.  The first conjunct evaluates the sample step of the main
loop at such a frame; the second records that the window changed. -/
theorem geometry_failure_still_adds_sample (a : HeartbeatAnalyzer) (p19 p24 p27 : Vec2)
    (frameW frameH : ℤ) (pixelMean : Rect × AffineM → Sample)
    (hcol : affDet p19 p24 p27 = 0) (hlen : a.buffer.length < a.ws) :
    (mainSampleStep a (get_stabilized_forehead frameW frameH p19 p24 p27) pixelMean).buffer
      = a.buffer ++ [(0, 0, 0)] ∧
    (mainSampleStep a (get_stabilized_forehead frameW frameH p19 p24 p27) pixelMean).buffer
      ≠ a.buffer := by
  rw [stabilized_none_of_collinear frameW frameH p19 p24 p27 hcol]
  have hbuf : (mainSampleStep a none pixelMean).buffer = a.buffer ++ [(0, 0, 0)] := by
    unfold mainSampleStep get_avg_bgr
    rw [add_sample_buffer, if_neg (by omega)]
  refine ⟨hbuf, ?_⟩
  rw [hbuf]
  intro hcontra
  have := congrArg List.length hcontra
  simp at this

/-- Concrete instance of geometry_failure_still_adds_sample: an empty
85-capacity window gains the zero sample on a degenerate frame. -/
theorem geometry_failure_still_adds_sample_witness :
    affDet ⟨0, 0⟩ ⟨1, 0⟩ ⟨2, 0⟩ = 0 ∧
    (HeartbeatAnalyzer.init 85 10).buffer.length < (HeartbeatAnalyzer.init 85 10).ws ∧
    ((mainSampleStep (HeartbeatAnalyzer.init 85 10)
        (get_stabilized_forehead 640 480 ⟨0, 0⟩ ⟨1, 0⟩ ⟨2, 0⟩) (fun _ => (0, 0, 0))).buffer
      = (HeartbeatAnalyzer.init 85 10).buffer ++ [(0, 0, 0)] ∧
     (mainSampleStep (HeartbeatAnalyzer.init 85 10)
        (get_stabilized_forehead 640 480 ⟨0, 0⟩ ⟨1, 0⟩ ⟨2, 0⟩) (fun _ => (0, 0, 0))).buffer
      ≠ (HeartbeatAnalyzer.init 85 10).buffer) :=
  ⟨by norm_num [affDet], by simp [HeartbeatAnalyzer.init],
   geometry_failure_still_adds_sample (HeartbeatAnalyzer.init 85 10) ⟨0, 0⟩ ⟨1, 0⟩ ⟨2, 0⟩
     640 480 (fun _ => (0, 0, 0)) (by norm_num [affDet]) (by simp [HeartbeatAnalyzer.init])⟩

lemma sum_sq_dev (c : ℝ) :
    ∀ v : List ℝ,
      (v.map fun x => (x - c) ^ 2).sum
        = (v.map fun x => x * x).sum - 2 * c * v.sum + (v.length : ℝ) * c ^ 2 := by
  intro v
  induction v with
  | nil => simp
  | cons a t ih =>
    simp only [List.map_cons, List.sum_cons, List.length_cons, ih]
    push_cast
    ring

/-- The sum-of-squares standard deviation computed by the get_std lambda
equals the population standard deviation of the specification. -/
lemma get_std_eq_popStd (v : List ℝ) : get_std v = popStd v := by
  unfold get_std popStd
  congr 1
  rcases eq_or_ne v.length 0 with h0 | h0
  · rw [List.length_eq_zero] at h0
    subst h0
    simp [meanL]
  · have hn : ((v.length : ℝ)) ≠ 0 := Nat.cast_ne_zero.mpr h0
    rw [sum_sq_dev]
    have hsum : v.sum = (v.length : ℝ) * meanL v := by
      unfold meanL
      field_simp
    rw [hsum]
    unfold meanL
    field_simp
    ring

/-- Claim C2: the PulseSignal handed to the spectral stage equals the
reference POS definition written from the specification (normalization,
projections, variance-balanced combination with population standard
deviations, re-centering, Hamming window). -/
theorem pos_signal_matches_reference (buf : List Sample) :
    posH buf = posReference buf := by
  unfold posH posReference
  dsimp only
  rw [get_std_eq_popStd, get_std_eq_popStd]

/-- The peak-search loop body generalized over the initial accumulator, for
reasoning about peakScan by induction. -/
noncomputable def peakFold (m : ℤ → ℝ) (init : ℤ × ℝ) (l : List ℤ) : ℤ × ℝ :=
  l.foldl (fun pm i => if pm.2 < m i then (i, m i) else pm) init

lemma peakScan_eq_peakFold (m : ℤ → ℝ) (l : List ℤ) :
    peakScan m l = peakFold m (-1, -1) l := rfl

lemma peakFold_spec (m : ℤ → ℝ) :
    ∀ (l : List ℤ) (p0 : ℤ) (v0 : ℝ),
      v0 ≤ (peakFold m (p0, v0) l).2 ∧
      (∀ i ∈ l, m i ≤ (peakFold m (p0, v0) l).2) ∧
      (peakFold m (p0, v0) l = (p0, v0) ∨
        ((peakFold m (p0, v0) l).1 ∈ l ∧
          (peakFold m (p0, v0) l).2 = m (peakFold m (p0, v0) l).1)) := by
  intro l
  induction l with
  | nil =>
    intro p0 v0
    simp [peakFold]
  | cons a t ih =>
    intro p0 v0
    have hstep : peakFold m (p0, v0) (a :: t)
        = peakFold m (if v0 < m a then (a, m a) else (p0, v0)) t := rfl
    by_cases hma : v0 < m a
    · rw [hstep, if_pos hma]
      obtain ⟨h1, h2, h3⟩ := ih a (m a)
      refine ⟨le_trans (le_of_lt hma) h1, ?_, ?_⟩
      · intro i hi
        rcases List.mem_cons.mp hi with rfl | hit
        · exact h1
        · exact h2 i hit
      · rcases h3 with heq | ⟨hmem, hval⟩
        · right
          rw [heq]
          exact ⟨List.mem_cons_self a t, rfl⟩
        · right
          exact ⟨List.mem_cons_of_mem a hmem, hval⟩
    · rw [hstep, if_neg hma]
      obtain ⟨h1, h2, h3⟩ := ih p0 v0
      refine ⟨h1, ?_, ?_⟩
      · intro i hi
        rcases List.mem_cons.mp hi with rfl | hit
        · exact le_trans (le_of_not_lt hma) h1
        · exact h2 i hit
      · rcases h3 with heq | ⟨hmem, hval⟩
        · exact Or.inl heq
        · exact Or.inr ⟨List.mem_cons_of_mem a hmem, hval⟩

lemma mem_scanIdxs {N : ℕ} {low high i : ℤ} :
    i ∈ scanIdxs N low high ↔ low ≤ i ∧ i ≤ min high (((N / 2 : ℕ) : ℤ) - 1) := by
  unfold scanIdxs
  constructor
  · intro hi
    obtain ⟨j, hj, hji⟩ := List.mem_map.mp hi
    rw [List.mem_range] at hj
    subst hji
    rcases le_total high (((N / 2 : ℕ) : ℤ) - 1) with hm | hm
    · rw [min_eq_left hm] at hj ⊢
      exact ⟨by omega, by omega⟩
    · rw [min_eq_right hm] at hj ⊢
      exact ⟨by omega, by omega⟩
  · rintro ⟨h1, h2⟩
    refine List.mem_map.mpr ⟨(i - low).toNat, List.mem_range.mpr ?_, ?_⟩
    · rcases le_total high (((N / 2 : ℕ) : ℤ) - 1) with hm | hm
      · rw [min_eq_left hm] at h2 ⊢
        omega
      · rw [min_eq_right hm] at h2 ⊢
        omega
    · omega

lemma dftMag_nonneg (H : List ℝ) (k : ℕ) : 0 ≤ dftMag H k := by
  unfold dftMag
  exact AbsoluteValue.nonneg Complex.abs _

lemma binBand_def (N : ℕ) (fps mb Mb : ℝ) :
    binBand N fps mb Mb =
      (clampO (⌊clampO (mb / 60) 0 (fps / 2) * (N : ℝ) / fps⌋ : ℤ) 1 (((N / 2 : ℕ) : ℤ) - 1),
       clampO (⌈clampO (Mb / 60) (clampO (mb / 60) 0 (fps / 2)) (fps / 2) * (N : ℝ) / fps⌉ : ℤ)
         (clampO (⌊clampO (mb / 60) 0 (fps / 2) * (N : ℝ) / fps⌋ : ℤ) 1 (((N / 2 : ℕ) : ℤ) - 1))
         (((N / 2 : ℕ) : ℤ) - 1)) := rfl

lemma binBand_bounds (N : ℕ) (fps mb Mb : ℝ) (h4 : 4 ≤ N) :
    1 ≤ (binBand N fps mb Mb).1 ∧ (binBand N fps mb Mb).1 ≤ (binBand N fps mb Mb).2 ∧
      (binBand N fps mb Mb).2 ≤ ((N / 2 : ℕ) : ℤ) - 1 := by
  have hmb : (1 : ℤ) ≤ ((N / 2 : ℕ) : ℤ) - 1 := by omega
  rw [binBand_def]
  dsimp only
  exact ⟨le_clampO hmb _, le_clampO (clampO_le hmb _) _, clampO_le (clampO_le hmb _) _⟩

/-- Claim C7: for a full window of capacity at least 4 the noise-floor branch
of calculate_bpm is unreachable; the scanned band is non-empty, every
magnitude is nonnegative and therefore beats the initial running maximum of
-1, so a strictly positive peak index is always selected and a BPM value is
returned. -/
theorem noise_floor_unreachable (a : HeartbeatAnalyzer) (min_b max_b : ℝ) (d : Bool)
    (h4 : 4 ≤ a.ws) (hlen : a.buffer.length = a.ws) :
    (calculate_bpm a min_b max_b d).2 ≠ .error "Noise floor too high" ∧
    ∃ v, (calculate_bpm a min_b max_b d).2 = .ok v := by
  have hok : ∃ v, (calculate_bpm a min_b max_b d).2 = .ok v := by
    rw [calculate_bpm_snd]
    unfold bpmOf
    rw [if_neg (by omega)]
    dsimp only
    have h4' : 4 ≤ a.buffer.length := hlen ▸ h4
    obtain ⟨hb1, hb2, hb3⟩ := binBand_bounds a.buffer.length a.fps min_b max_b h4'
    have hmem_low : (binBand a.buffer.length a.fps min_b max_b).1
        ∈ scanIdxs a.buffer.length (binBand a.buffer.length a.fps min_b max_b).1
          (binBand a.buffer.length a.fps min_b max_b).2 :=
      mem_scanIdxs.mpr ⟨le_refl _, by omega⟩
    rw [peakScan_eq_peakFold]
    obtain ⟨h1, h2, h3⟩ := peakFold_spec (fun i => dftMag (posH a.buffer) i.toNat)
      (scanIdxs a.buffer.length (binBand a.buffer.length a.fps min_b max_b).1
        (binBand a.buffer.length a.fps min_b max_b).2) (-1) (-1)
    have hge : (0 : ℝ) ≤ (peakFold (fun i => dftMag (posH a.buffer) i.toNat)
        (-1, -1) (scanIdxs a.buffer.length (binBand a.buffer.length a.fps min_b max_b).1
          (binBand a.buffer.length a.fps min_b max_b).2)).2 :=
      le_trans (dftMag_nonneg _ _) (h2 _ hmem_low)
    rcases h3 with heq | ⟨hmem, _⟩
    · exfalso
      rw [heq] at hge
      norm_num at hge
    · have hlow := (mem_scanIdxs.mp hmem).1
      rw [if_neg (by omega)]
      exact ⟨_, rfl⟩
  obtain ⟨v, hv⟩ := hok
  refine ⟨?_, ⟨v, hv⟩⟩
  rw [hv]
  simp

/-- Concrete instance of noise_floor_unreachable: a full 4-sample window. -/
theorem noise_floor_unreachable_witness :
    4 ≤ (HeartbeatAnalyzer.mk 4 10 (List.replicate 4 ((120 : ℝ), 130, 110)) none none none).ws ∧
    (HeartbeatAnalyzer.mk 4 10 (List.replicate 4 ((120 : ℝ), 130, 110)) none none none).buffer.length
      = (HeartbeatAnalyzer.mk 4 10 (List.replicate 4 ((120 : ℝ), 130, 110)) none none none).ws ∧
    ((calculate_bpm (HeartbeatAnalyzer.mk 4 10 (List.replicate 4 ((120 : ℝ), 130, 110)) none none none)
        45 180 false).2 ≠ .error "Noise floor too high" ∧
      ∃ v, (calculate_bpm (HeartbeatAnalyzer.mk 4 10 (List.replicate 4 ((120 : ℝ), 130, 110)) none none none)
        45 180 false).2 = .ok v) :=
  ⟨by norm_num, by simp,
   noise_floor_unreachable
     (HeartbeatAnalyzer.mk 4 10 (List.replicate 4 ((120 : ℝ), 130, 110)) none none none)
     45 180 false (by norm_num) (by simp)⟩

/-- The search band as worded by the specification (spec section 4.5 step 2):
BPM bounds converted to Hz and clamped into [0, fps/2] with max_hz kept at
least min_hz, bin bounds low = floor(min_hz N / fps) and
high = ceil(max_hz N / fps) clamped into [1, N/2 - 1] with high kept at
least low. -/
noncomputable def specBand (N : ℕ) (fps min_b max_b : ℝ) : ℤ × ℤ :=
  let min_hz := max 0 (min (fps / 2) (min_b / 60))
  let max_hz := max min_hz (max 0 (min (fps / 2) (max_b / 60)))
  let maxBin : ℤ := ((N / 2 : ℕ) : ℤ) - 1
  let low := max 1 (min maxBin ⌊min_hz * (N : ℝ) / fps⌋)
  (low, max low (max 1 (min maxBin ⌈max_hz * (N : ℝ) / fps⌉)))

lemma binBand_eq_specBand (N : ℕ) (fps mb Mb : ℝ) (h4 : 4 ≤ N) (hf : 0 ≤ fps) :
    binBand N fps mb Mb = specBand N fps mb Mb := by
  have hnyq : (0 : ℝ) ≤ fps / 2 := by linarith
  have hmb : (1 : ℤ) ≤ ((N / 2 : ℕ) : ℤ) - 1 := by omega
  have hminhz : clampO (mb / 60) 0 (fps / 2) = max 0 (min (fps / 2) (mb / 60)) :=
    clampO_eq_max_min hnyq _
  have hm0 : (0 : ℝ) ≤ max 0 (min (fps / 2) (mb / 60)) := le_max_left _ _
  have hminle : max 0 (min (fps / 2) (mb / 60)) ≤ fps / 2 :=
    max_le hnyq (min_le_left _ _)
  have hmaxhz : clampO (Mb / 60) (clampO (mb / 60) 0 (fps / 2)) (fps / 2)
      = max (max 0 (min (fps / 2) (mb / 60))) (max 0 (min (fps / 2) (Mb / 60))) := by
    rw [hminhz, clampO_eq_max_min hminle, ← max_assoc, max_eq_left hm0]
  rw [binBand_def]
  unfold specBand
  dsimp only
  rw [hmaxhz, hminhz]
  rw [clampO_eq_max_min hmb]
  have hL : max 1 (min (((N / 2 : ℕ) : ℤ) - 1)
        ⌊max 0 (min (fps / 2) (mb / 60)) * (N : ℝ) / fps⌋) ≤ ((N / 2 : ℕ) : ℤ) - 1 :=
    max_le hmb (min_le_left _ _)
  rw [clampO_eq_max_min hL]
  rw [← max_assoc, max_eq_left (le_max_left _ _)]
  have habs : ∀ L w : ℤ, 1 ≤ L → L ⊔ (1 ⊔ w) = L ⊔ w := by
    intro L w h
    rw [← max_assoc, max_eq_left h]
  rw [habs _ _ (le_max_left _ _)]

/-- Claim C3: with a full window (capacity at least 4) the peak search uses
exactly the band worded by the specification, and a successful result equals
peak_bin x fps / N x 60 for a peak_bin of maximal magnitude inside that
band. -/
theorem spectral_band_and_peak (a : HeartbeatAnalyzer) (min_b max_b : ℝ) (d : Bool)
    (h4 : 4 ≤ a.ws) (hlen : a.buffer.length = a.ws) (hf : 0 ≤ a.fps) :
    binBand a.buffer.length a.fps min_b max_b = specBand a.buffer.length a.fps min_b max_b ∧
    ∀ v, (calculate_bpm a min_b max_b d).2 = .ok v →
      ∃ p : ℤ,
        (specBand a.buffer.length a.fps min_b max_b).1 ≤ p ∧
        p ≤ (specBand a.buffer.length a.fps min_b max_b).2 ∧
        (∀ i : ℤ, (specBand a.buffer.length a.fps min_b max_b).1 ≤ i →
          i ≤ (specBand a.buffer.length a.fps min_b max_b).2 →
          dftMag (posH a.buffer) i.toNat ≤ dftMag (posH a.buffer) p.toNat) ∧
        v = (p : ℝ) * a.fps / (a.buffer.length : ℝ) * 60 := by
  have h4' : 4 ≤ a.buffer.length := hlen ▸ h4
  have hspec := binBand_eq_specBand a.buffer.length a.fps min_b max_b h4' hf
  refine ⟨hspec, ?_⟩
  intro v hv
  rw [calculate_bpm_snd] at hv
  unfold bpmOf at hv
  rw [if_neg (by omega)] at hv
  dsimp only at hv
  rw [peakScan_eq_peakFold] at hv
  obtain ⟨hb1, hb2, hb3⟩ := binBand_bounds a.buffer.length a.fps min_b max_b h4'
  obtain ⟨h1, h2, h3⟩ := peakFold_spec (fun i => dftMag (posH a.buffer) i.toNat)
    (scanIdxs a.buffer.length (binBand a.buffer.length a.fps min_b max_b).1
      (binBand a.buffer.length a.fps min_b max_b).2) (-1) (-1)
  by_cases hple : (peakFold (fun i => dftMag (posH a.buffer) i.toNat)
      (-1, -1) (scanIdxs a.buffer.length (binBand a.buffer.length a.fps min_b max_b).1
        (binBand a.buffer.length a.fps min_b max_b).2)).1 ≤ 0
  · rw [if_pos hple] at hv
    exact absurd hv (by simp)
  · rw [if_neg hple] at hv
    have hveq : ((peakFold (fun i => dftMag (posH a.buffer) i.toNat)
        (-1, -1) (scanIdxs a.buffer.length (binBand a.buffer.length a.fps min_b max_b).1
          (binBand a.buffer.length a.fps min_b max_b).2)).1 : ℝ)
          * a.fps / (a.buffer.length : ℝ) * 60 = v := Except.ok.inj hv
    rcases h3 with heq | ⟨hmem, hval⟩
    · exfalso
      rw [heq] at hple
      exact hple (by norm_num)
    · obtain ⟨hil, hih⟩ := mem_scanIdxs.mp hmem
      refine ⟨_, ?_, ?_, ?_, hveq.symm⟩
      · rw [← hspec]
        exact hil
      · rw [← hspec]
        exact le_trans hih (min_le_left _ _)
      · intro i hi1 hi2
        rw [← hspec] at hi1 hi2
        have hi_mem : i ∈ scanIdxs a.buffer.length
            (binBand a.buffer.length a.fps min_b max_b).1
            (binBand a.buffer.length a.fps min_b max_b).2 :=
          mem_scanIdxs.mpr ⟨hi1, le_min hi2 (le_trans hi2 hb3)⟩
        have hle := h2 i hi_mem
        rw [hval] at hle
        exact hle

/-- Concrete instance of spectral_band_and_peak: a full 4-sample window at
10 fps with the default BPM bounds. -/
theorem spectral_band_and_peak_witness :
    4 ≤ (HeartbeatAnalyzer.mk 4 10 (List.replicate 4 ((120 : ℝ), 130, 110)) none none none).ws ∧
    (binBand (HeartbeatAnalyzer.mk 4 10 (List.replicate 4 ((120 : ℝ), 130, 110)) none none none).buffer.length
        10 45 180
      = specBand (HeartbeatAnalyzer.mk 4 10 (List.replicate 4 ((120 : ℝ), 130, 110)) none none none).buffer.length
        10 45 180) :=
  ⟨by norm_num,
   (spectral_band_and_peak
      (HeartbeatAnalyzer.mk 4 10 (List.replicate 4 ((120 : ℝ), 130, 110)) none none none)
      45 180 false (by norm_num) (by simp) (by norm_num)).1⟩

lemma zipWith_replicate' (f : α → β → γ) (a : α) (b : β) :
    ∀ n, List.zipWith f (List.replicate n a) (List.replicate n b) = List.replicate n (f a b) := by
  intro n
  induction n with
  | zero => rfl
  | succ k ih => simp [List.replicate_succ, ih]

lemma zipWith3_replicate (f : α → β → γ → δ) (a : α) (b : β) (c : γ) :
    ∀ n, zipWith3 f (List.replicate n a) (List.replicate n b) (List.replicate n c)
      = List.replicate n (f a b c) := by
  intro n
  induction n with
  | zero => rfl
  | succ k ih => simp [List.replicate_succ, zipWith3, ih]

lemma meanL_replicate {n : ℕ} (hn : n ≠ 0) (x : ℝ) : meanL (List.replicate n x) = x := by
  unfold meanL
  rw [List.sum_replicate, List.length_replicate, nsmul_eq_mul]
  field_simp

lemma normalizeCh_replicate {n : ℕ} (hn : n ≠ 0) (x : ℝ) :
    normalizeCh (List.replicate n x) = List.replicate n (x / (x + 1e-6) - 1) := by
  unfold normalizeCh
  rw [meanL_replicate hn, List.map_replicate]

lemma get_std_replicate {n : ℕ} (hn : n ≠ 0) (x : ℝ) :
    get_std (List.replicate n x) = 0 := by
  unfold get_std
  rw [List.map_replicate, List.sum_replicate, List.length_replicate, nsmul_eq_mul,
    meanL_replicate hn]
  have hx : (n : ℝ) * (x * x) / (n : ℝ) - x * x = 0 := by
    field_simp
  rw [hx, Real.sqrt_zero]

lemma mapIdx_replicate_zero :
    ∀ (n : ℕ) (g : ℕ → ℝ → ℝ), (∀ i v, v = 0 → g i v = 0) →
      (List.replicate n (0 : ℝ)).mapIdx g = List.replicate n 0 := by
  intro n
  induction n with
  | zero => intro g hg; rfl
  | succ k ih =>
    intro g hg
    rw [List.replicate_succ, List.mapIdx_cons, hg 0 0 rfl,
      ih (fun i => g (i + 1)) (fun i v hv => hg (i + 1) v hv)]

/-- A window of identical samples produces the all-zero PulseSignal: constant
channels normalize to constants, both projections are constant, both standard
deviations vanish, and the mean subtraction zeroes the signal before the
Hamming window multiplies it by finite coefficients. -/
lemma posH_replicate (n : ℕ) (hn : n ≠ 0) (b g r : ℝ) :
    posH (List.replicate n (b, g, r)) = List.replicate n 0 := by
  unfold posH
  dsimp only
  rw [List.map_replicate, List.map_replicate, List.map_replicate]
  rw [normalizeCh_replicate hn, normalizeCh_replicate hn, normalizeCh_replicate hn]
  rw [zipWith_replicate', zipWith3_replicate]
  rw [get_std_replicate hn, get_std_replicate hn]
  rw [zero_div, zipWith_replicate']
  rw [List.map_replicate, meanL_replicate hn, List.length_replicate]
  rw [sub_self, mapIdx_replicate_zero n _ (fun i v hv => by rw [hv, zero_mul])]

lemma getD_replicate_zero : ∀ (n j : ℕ), (List.replicate n (0 : ℝ)).getD j 0 = 0 := by
  intro n
  induction n with
  | zero => intro j; rfl
  | succ k ih =>
    intro j
    cases j with
    | zero => rfl
    | succ m =>
      rw [List.replicate_succ, List.getD_cons_succ]
      exact ih m

lemma dftMag_replicate_zero (n k : ℕ) : dftMag (List.replicate n (0 : ℝ)) k = 0 := by
  unfold dftMag
  have hz : ∀ j ∈ Finset.range (List.replicate n (0 : ℝ)).length,
      ((List.replicate n (0 : ℝ)).getD j 0 : ℂ)
        * Complex.exp (-(2 * Real.pi * Complex.I * (j : ℂ) * (k : ℂ))
            / ((List.replicate n (0 : ℝ)).length : ℂ)) = 0 := by
    intro j _
    rw [getD_replicate_zero]
    simp
  rw [Finset.sum_congr rfl hz, Finset.sum_const, smul_zero, map_zero]

lemma binBand_const : binBand 85 10 45 180 = (6, 26) := by
  rw [binBand_def]
  have hmin : clampO ((45 : ℝ) / 60) 0 (10 / 2) = 3 / 4 := by norm_num [clampO]
  rw [hmin]
  have hmax : clampO ((180 : ℝ) / 60) (3 / 4) (10 / 2) = 3 := by norm_num [clampO]
  rw [hmax]
  have hfl : ⌊(3 : ℝ) / 4 * ((85 : ℕ) : ℝ) / 10⌋ = (6 : ℤ) := by
    rw [Int.floor_eq_iff]
    constructor <;> norm_num
  rw [hfl]
  have hcl : ⌈(3 : ℝ) * ((85 : ℕ) : ℝ) / 10⌉ = (26 : ℤ) := by
    rw [Int.ceil_eq_iff]
    constructor <;> norm_num
  rw [hcl]
  have hbin : (((85 / 2 : ℕ) : ℤ) - 1) = 41 := by norm_num
  rw [hbin]
  have h6 : clampO (6 : ℤ) 1 41 = 6 := by decide
  rw [h6]
  have h26 : clampO (26 : ℤ) 6 41 = 26 := by decide
  rw [h26]

lemma scanIdxs_cons (N : ℕ) (low high : ℤ)
    (h : 0 < (min high (((N / 2 : ℕ) : ℤ) - 1) + 1 - low).toNat) :
    ∃ t, scanIdxs N low high = low :: t := by
  unfold scanIdxs
  rcases hk : (min high (((N / 2 : ℕ) : ℤ) - 1) + 1 - low).toNat with _ | c
  · omega
  · rw [List.range_succ_eq_map, List.map_cons]
    refine ⟨(List.map Nat.succ (List.range c)).map (fun j : ℕ => low + (j : ℤ)), ?_⟩
    simp

lemma peakFold_const_zero (m : ℤ → ℝ) (hm : ∀ i, m i = 0) :
    ∀ (l : List ℤ) (p : ℤ), peakFold m (p, 0) l = (p, 0) := by
  intro l
  induction l with
  | nil => intro p; rfl
  | cons a t ih =>
    intro p
    have hstep : peakFold m (p, 0) (a :: t)
        = peakFold m (if (0 : ℝ) < m a then (a, m a) else (p, 0)) t := rfl
    rw [hstep, if_neg (by rw [hm a]; norm_num)]
    exact ih p

lemma peakScan_all_zero (m : ℤ → ℝ) (hm : ∀ i, m i = 0) (a : ℤ) (l : List ℤ) :
    peakScan m (a :: l) = (a, 0) := by
  rw [peakScan_eq_peakFold]
  have hstep : peakFold m (-1, -1) (a :: l)
      = peakFold m (if (-1 : ℝ) < m a then (a, m a) else (-1, -1)) l := rfl
  rw [hstep, if_pos (by rw [hm a]; norm_num), hm a]
  exact peakFold_const_zero m hm l a

/-- Claim C1 is violated by the code: for the spec scenario (capacity 85,
10 fps, 85 identical samples (B=120, G=130, R=110), bounds 45/180 BPM) the
PulseSignal is indeed all-zero, but calculate_bpm does NOT return the
noise-floor error: every DFT magnitude is 0 and beats the initial running
maximum of -1, so the first in-band bin (bin 6) is selected and the call
returns Ready with 6 x 10 / 85 x 60 = 720/17 (about 42.35 BPM). -/
theorem constant_window_returns_bpm :
    posH (List.replicate 85 ((120 : ℝ), 130, 110)) = List.replicate 85 0 ∧
    (calculate_bpm (HeartbeatAnalyzer.mk 85 10 (List.replicate 85 ((120 : ℝ), 130, 110)) none none none)
        45 180 false).2 = .ok (720 / 17) := by
  have hpos : posH (List.replicate 85 ((120 : ℝ), 130, 110)) = List.replicate 85 0 :=
    posH_replicate 85 (by norm_num) 120 130 110
  refine ⟨hpos, ?_⟩
  rw [calculate_bpm_snd]
  show bpmOf (List.replicate 85 ((120 : ℝ), 130, 110)) 85 10 45 180 = .ok (720 / 17)
  unfold bpmOf
  rw [if_neg (by simp)]
  dsimp only
  simp only [List.length_replicate, hpos, binBand_const]
  obtain ⟨t, ht⟩ := scanIdxs_cons 85 6 26 (by decide)
  rw [ht, peakScan_all_zero _ (fun i => dftMag_replicate_zero 85 _) 6 t]
  rw [if_neg (by decide)]
  rw [Except.ok.injEq]
  push_cast
  norm_num

end HeartRate
